import Mathlib

/-!
Shallow embedding of the go-rrd rrdcached client (package rrd).

The protocol engine lives in the unnamed source file (`Client.ExecCmd`,
`Client.Close`, `Client.scanErr`, the `respRe` regular expression); the typed
info decoder lives in `cmd_info.go` (`Client.Info`).  Stateful reads from the
connection's line scanner are modelled by the list of lines the stream will
yield, together with the scanner error observed once the stream ends
(`none` = clean end of stream).  Write attempts and reconnection results are
modelled by an explicit script of outcomes.  Machine integers are `Int` with
explicit 64-bit range checks; `float64` values are modelled by exact rationals
(plus infinities and NaN), which is exact for every value the claims mention.
-/

set_option maxRecDepth 100000

/-- Error values returned by the client, as a closed syntax of the Go error
values the source constructs.  `rrd` models `NewError` and `invalidResponse`
models `NewInvalidResponseError`; both constructors are modelled from the
spec (the errors file of the repository is not under src/): a structured
protocol error carries the numeric status code and the daemon message, and an
invalid-response error carries a message naming the offending key plus the
raw line.  `wrap` models `fmt.Errorf` with a `%w` verb, `plain` models a
`fmt.Errorf` without one, and `unexpectedEOF` models `io.ErrUnexpectedEOF`. -/
inductive Err where
  | unexpectedEOF : Err
  | plain (msg : String) : Err
  | wrap (ctx : String) (e : Err) : Err
  | rrd (code : Int) (msg : String) : Err
  | invalidResponse (msg : String) (line : String) : Err
deriving DecidableEq

/-- Result of parsing a Go `float64` literal: a finite value (an exact
rational; binary rounding to 53 bits is not modelled, which is exact for the
values appearing in the claims), an infinity, or NaN. -/
inductive GoFloat where
  | finite (q : ℚ) : GoFloat
  | inf (neg : Bool) : GoFloat
  | nan : GoFloat
deriving DecidableEq

/-- Tagged value of one info entry: the `interface{}` stored in `Info.Value`
is always a string, an `int64`, or a `float64`. -/
inductive InfoValue where
  | str (s : String) : InfoValue
  | int (i : Int) : InfoValue
  | float (f : GoFloat) : InfoValue
deriving DecidableEq

/-- The `Info` struct of cmd_info.go: one configuration key with its typed
value. -/
structure Info where
  key : String
  value : InfoValue
deriving DecidableEq

/-- Character class of the Go regexp escape `\s`, namely `[\t\n\f\r ]`. -/
def goIsSpace (c : Char) : Bool :=
  c == ' ' || c == '\t' || c == '\n' || c == '\x0c' || c == '\r'

/-- Numeric value of a list of decimal digit characters. -/
def digitsToNat (ds : List Char) : Nat :=
  ds.foldl (fun a c => a * 10 + (c.toNat - 48)) 0

/-- Model of `strconv.ParseInt(s, 10, 64)` (and of `strconv.Atoi`, which is
equivalent on 64-bit platforms): an optional sign, one or more decimal
digits (underscores are rejected for an explicit base), and a signed 64-bit
range check. -/
def parseInt64 (s : String) : Option Int :=
  match s.toList with
  | [] => none
  | c :: cs =>
    let neg : Bool := c == '-'
    let ds : List Char := if c == '-' || c == '+' then cs else c :: cs
    if ds.isEmpty || !(ds.all Char.isDigit) then none
    else
      let v : Int := if neg then -(digitsToNat ds : Int) else (digitsToNat ds : Int)
      if v < -(2 ^ 63) || (2 ^ 63 - 1 : Int) < v then none else some v

/-- Hexadecimal digit test (`0-9a-fA-F`). -/
def isHexDig (c : Char) : Bool :=
  c.isDigit || (Nat.ble 97 c.toNat && Nat.ble c.toNat 102)
    || (Nat.ble 65 c.toNat && Nat.ble c.toNat 70)

/-- Numeric value of one hexadecimal digit character. -/
def hexVal (c : Char) : Nat :=
  if c.isDigit then c.toNat - 48
  else if Nat.ble 97 c.toNat && Nat.ble c.toNat 102 then c.toNat - 87
  else if Nat.ble 65 c.toNat && Nat.ble c.toNat 70 then c.toNat - 55
  else 0

/-- Numeric value of a list of hexadecimal digit characters. -/
def hexToNat (ds : List Char) : Nat :=
  ds.foldl (fun a c => a * 16 + hexVal c) 0

/-- Magnitude from which `strconv.ParseFloat`'s 64-bit rounding overflows to
infinity (largest finite `float64` plus half an ulp). -/
def f64Max : ℚ := mkRat (((2 ^ 54 - 1) * 2 ^ 970 : Nat) : Int) 1

/-- Model of the range policy of `strconv.ParseFloat(_, 64)` on a
syntactically valid finite literal with exact value `q`: only overflow
beyond the largest finite `float64` is a range error (`ErrRange`, making the
Go code take its error branch); every other value, including underflow to
zero (where Go returns `0` with a nil error), parses successfully and is
kept exact here, rounding not being modelled. -/
def float64Clamp (q : ℚ) : Option GoFloat :=
  if f64Max ≤ q ∨ q ≤ -f64Max then none
  else some (GoFloat.finite q)

/-- Case-insensitive comparison of a character list against a (lowercase)
string, as Go's `lower` is applied when recognising `inf` and `nan`. -/
def lcIs (cs : List Char) (t : String) : Bool :=
  (cs.map Char.toLower) == t.toList

/-- Loop of `strconv`'s `underscoreOK`: `saw` is the class of the previous
character (`^` start, `0` digit or base prefix, `_` underscore, `!` other);
every underscore must sit between digits. -/
def usOKLoop (hex : Bool) : Char → List Char → Bool
  | saw, [] => saw != '_'
  | saw, c :: rest =>
    if c.isDigit || (hex && isHexDig c) then usOKLoop hex '0' rest
    else if c == '_' then (saw == '0') && usOKLoop hex '_' rest
    else if saw == '_' then false
    else usOKLoop hex '!' rest

/-- Model of `strconv`'s `underscoreOK`: underscores may appear only between
digits or right after a base prefix, mirroring Go numeric literal syntax. -/
def underscoreOK (cs : List Char) : Bool :=
  let cs1 : List Char :=
    match cs with
    | '+' :: t => t
    | '-' :: t => t
    | t => t
  match cs1 with
  | '0' :: b :: t =>
    if b == 'x' || b == 'X' then usOKLoop true '0' t
    else if b == 'b' || b == 'B' || b == 'o' || b == 'O' then usOKLoop false '0' t
    else usOKLoop false '^' cs1
  | _ => usOKLoop false '^' cs1

/-- Exponent tail of a float literal: an optional sign followed by one or
more decimal digits, consuming the whole remainder. -/
def parseExpTail (t : List Char) : Option Int :=
  let eneg : Bool := match t with | '-' :: _ => true | _ => false
  let ds : List Char := match t with | '-' :: r => r | '+' :: r => r | r => r
  if ds.isEmpty || !(ds.all Char.isDigit) then none
  else some (if eneg then -(digitsToNat ds : Int) else (digitsToNat ds : Int))

/-- Value of a decimal mantissa `ip.fp` times `10^ex`, with sign, passed
through the `float64` range policy. -/
def decValue (ip fp : List Char) (ex : Int) (neg : Bool) : Option GoFloat :=
  let m : Nat := digitsToNat (ip ++ fp)
  let sm : Int := if neg then -(m : Int) else (m : Int)
  let pw : Int := ex - (fp.length : Int)
  let q : ℚ :=
    if 0 ≤ pw then mkRat (sm * ((10 ^ pw.toNat : Nat) : Int)) 1
    else mkRat sm (10 ^ (-pw).toNat)
  float64Clamp q

/-- Value of a hexadecimal mantissa `ip.fp` times `2^ex`, with sign, passed
through the `float64` range policy. -/
def hexValue (ip fp : List Char) (ex : Int) (neg : Bool) : Option GoFloat :=
  let m : Nat := hexToNat (ip ++ fp)
  let sm : Int := if neg then -(m : Int) else (m : Int)
  let pw : Int := ex - 4 * (fp.length : Int)
  let q : ℚ :=
    if 0 ≤ pw then mkRat (sm * ((2 ^ pw.toNat : Nat) : Int)) 1
    else mkRat sm (2 ^ (-pw).toNat)
  float64Clamp q

/-- Decimal form of a `ParseFloat` literal (after sign and underscore
processing): digits, an optional fraction, an optional `e`/`E` exponent. -/
def parseDec (cs : List Char) (neg : Bool) : Option GoFloat :=
  let ip := cs.takeWhile Char.isDigit
  let r1 := cs.dropWhile Char.isDigit
  let fp : List Char := match r1 with | '.' :: t => t.takeWhile Char.isDigit | _ => []
  let r2 : List Char := match r1 with | '.' :: t => t.dropWhile Char.isDigit | _ => r1
  if ip.isEmpty && fp.isEmpty then none
  else
    match r2 with
    | [] => decValue ip fp 0 neg
    | c :: t =>
      if c == 'e' || c == 'E' then
        match parseExpTail t with
        | some ex => decValue ip fp ex neg
        | none => none
      else none

/-- Hexadecimal form of a `ParseFloat` literal (after the `0x` prefix):
hex digits, an optional fraction, a mandatory `p`/`P` binary exponent. -/
def parseHex (cs : List Char) (neg : Bool) : Option GoFloat :=
  let ip := cs.takeWhile isHexDig
  let r1 := cs.dropWhile isHexDig
  let fp : List Char := match r1 with | '.' :: t => t.takeWhile isHexDig | _ => []
  let r2 : List Char := match r1 with | '.' :: t => t.dropWhile isHexDig | _ => r1
  if ip.isEmpty && fp.isEmpty then none
  else
    match r2 with
    | [] => none
    | c :: t =>
      if c == 'p' || c == 'P' then
        match parseExpTail t with
        | some ex => hexValue ip fp ex neg
        | none => none
      else none

/-- Model of `strconv.ParseFloat(s, 64)`: optional sign, the `inf`,
`infinity` and (unsigned) `nan` specials, underscore validation, then the
decimal or hexadecimal literal grammar.  Syntax errors and range errors both
yield `none`, as the Go caller observes only `err != nil`. -/
def parseFloat (s : String) : Option GoFloat :=
  match s.toList with
  | [] => none
  | c0 :: rest0 =>
    let signed : Bool := c0 == '-' || c0 == '+'
    let neg : Bool := c0 == '-'
    let body : List Char := if signed then rest0 else c0 :: rest0
    if body.isEmpty then none
    else if lcIs body ("inf") || lcIs body ("infinity") then some (GoFloat.inf neg)
    else if !signed && lcIs body ("nan") then some GoFloat.nan
    else if body.contains '_' && !underscoreOK (c0 :: rest0) then none
    else
      let b : List Char := body.filter (fun c => c != '_')
      match b with
      | '0' :: x :: t =>
        if x == 'x' || x == 'X' then parseHex t neg else parseDec b neg
      | _ => parseDec b neg

/-- Model of matching a reply line against `respRe`, the anchored regular
expression `^(-?\d+)\s+(.*)$`: an optional minus sign and at least one digit
(first capture group), at least one whitespace character, then the rest of
the line (second capture group, which may not contain a newline as `.` does
not match one).  `none` models `FindStringSubmatch` not returning the three
matches. -/
def respReMatch (l : String) : Option (String × String) :=
  let cs := l.toList
  let neg : Bool := match cs with | '-' :: _ => true | _ => false
  let cs1 : List Char := match cs with | '-' :: t => t | t => t
  let ds := cs1.takeWhile Char.isDigit
  let r1 := cs1.dropWhile Char.isDigit
  let ws := r1.takeWhile goIsSpace
  let r2 := r1.dropWhile goIsSpace
  if ds.isEmpty || ws.isEmpty || r2.contains '\n' then none
  else some (String.mk (if neg then '-' :: ds else ds), String.mk r2)

/-- Model of `Client.scanErr`: the scanner's own error when there is one,
`io.ErrUnexpectedEOF` when the stream simply closed cleanly. -/
def scanTermErr (endErr : Option Err) : Err :=
  match endErr with
  | some e => e
  | none => Err.unexpectedEOF

/-- Reply-decoding phase of `Client.ExecCmd`, lines 129-174 of the core
source file: read the status line, match it against `respRe`, convert the
count, then dispatch on its sign; for a positive count read exactly that
many further lines, failing with `scanErr()` on a short response.  `ls` is
the sequence of lines the scanner will yield and `endErr` the scanner error
seen after they are exhausted; `SetDeadline` is modelled as always
succeeding. -/
def execReply (ls : List String) (endErr : Option Err) : Except Err (List String) :=
  match ls with
  | [] => Except.error (Err.wrap ("scan error") (scanTermErr endErr))
  | l :: rest =>
    match respReMatch l with
    | none => Except.error (Err.plain (("not 3 matches: \x27") ++ l ++ ("\x27")))
    | some (ns, tr) =>
      match parseInt64 ns with
      | none =>
        Except.error (Err.wrap (("failed to convert to int \x27") ++ ns ++ ("\x27"))
          (Err.plain ("value out of range")))
      | some cnt =>
        if cnt < 0 then Except.error (Err.rrd cnt tr)
        else if cnt = 0 then Except.ok [tr]
        else if cnt.toNat ≤ rest.length then Except.ok (rest.take cnt.toNat)
        else Except.error (scanTermErr endErr)

/-- One write error as classified by `Client.ExecCmd` line 115: whether
`errors.Is` recognises it as `syscall.EPIPE` or `syscall.ECONNRESET`, plus
its `Error()` text. -/
structure WErr where
  epipe : Bool
  reset : Bool
  msg : String
deriving DecidableEq

/-- One iteration of the write loop: the outcome of `conn.Write` (`none` =
success) and, where the loop would reconnect, the outcome of
`initConnection` (`none` = success). -/
structure WAttempt where
  wres : Option WErr
  rres : Option Err
deriving DecidableEq

/-- Outcome of the write loop of `Client.ExecCmd`: success, an error
returned to the caller, or the modelled script ran out while the loop would
have kept retrying. -/
inductive WriteOutcome where
  | ok : WriteOutcome
  | failed (e : Err) : WriteOutcome
  | exhausted : WriteOutcome
deriving DecidableEq

/-- Retry eligibility test of `Client.ExecCmd` line 115: only broken-pipe
and connection-reset write errors are retried. -/
def retryable (w : WErr) : Bool := w.epipe || w.reset

/-- Write loop of `Client.ExecCmd`, lines 113-126: on a retryable write
error reconnect and, if reconnection succeeds, retry the write; if
reconnection fails, report both errors together; any other write error is
returned at once; a successful write leaves the loop. -/
def writeLoop : List WAttempt → WriteOutcome
  | [] => WriteOutcome.exhausted
  | a :: rest =>
    match a.wres with
    | none => WriteOutcome.ok
    | some w =>
      if retryable w then
        match a.rres with
        | some e2 =>
          WriteOutcome.failed
            (Err.wrap (("failed to write (") ++ w.msg ++ (") and failed to reestablish")) e2)
        | none => writeLoop rest
      else WriteOutcome.failed (Err.wrap ("failed to write") (Err.plain w.msg))

/-- Full `Client.ExecCmd`: the write loop over the modelled attempt script,
then the reply-decoding phase over the modelled stream. -/
def execCmd (_cmd : String) (ws : List WAttempt) (ls : List String) (endErr : Option Err) :
    Except Err (List String) :=
  match writeLoop ws with
  | WriteOutcome.ok => execReply ls endErr
  | WriteOutcome.failed e => Except.error e
  | WriteOutcome.exhausted => Except.error (Err.plain ("modelled write script exhausted"))

/-- Split at the first space character: the field before it and, when a
space exists, the remainder after it. -/
def splitSp1 : List Char → List Char × Option (List Char)
  | [] => ([], none)
  | c :: t =>
    if c == ' ' then ([], some t)
    else
      let r := splitSp1 t
      (c :: r.1, r.2)

/-- Model of `strings.SplitN(line, " ", 3)`: at most three fields, the last
one being the unsplit remainder (so the third field keeps any embedded
spaces). -/
def goSplitN3 (l : String) : List String :=
  match splitSp1 l.toList with
  | (a, none) => [String.mk a]
  | (a, some r1) =>
    match splitSp1 r1 with
    | (b, none) => [String.mk a, String.mk b]
    | (b, some r2) => [String.mk a, String.mk b, String.mk r2]

/-- Loop body of `Client.Info`, lines 36-61 of cmd_info.go: split one reply
line into exactly three fields, then dispatch on the type tag `"2"`
(string), `"1"` (64-bit integer), `"0"` (64-bit float); anything else is an
invalid-response error naming the tag and the key. -/
def decodeInfoLine (line : String) : Except Err Info :=
  match goSplitN3 line with
  | [k, t, v] =>
    if t = ("2") then Except.ok ⟨k, InfoValue.str v⟩
    else if t = ("1") then
      match parseInt64 v with
      | some i => Except.ok ⟨k, InfoValue.int i⟩
      | none => Except.error (Err.invalidResponse (("info: invalid int for key ") ++ k) line)
    else if t = ("0") then
      match parseFloat v with
      | some f => Except.ok ⟨k, InfoValue.float f⟩
      | none => Except.error (Err.invalidResponse (("info: invalid float for key ") ++ k) line)
    else
      Except.error
        (Err.invalidResponse (("info: unknown type ") ++ t ++ (" for key ") ++ k) line)
  | _ => Except.error (Err.plain (("unexpected response: not 3 parts \x27") ++ line ++ ("\x27")))

/-- Decoding loop of `Client.Info`: every line must decode; the first bad
line's error is returned and no partial list escapes. -/
def infoDecode : List String → Except Err (List Info)
  | [] => Except.ok []
  | l :: rest =>
    match decodeInfoLine l with
    | Except.error e => Except.error e
    | Except.ok i =>
      match infoDecode rest with
      | Except.error e => Except.error e
      | Except.ok is => Except.ok (i :: is)

/-- Modelled from the spec: `Cmd.String` of the command encoder (its source
file is not under src/) produces the verb and the arguments joined by single
spaces, terminated by a newline (spec section 4.1). -/
def cmdString (verb : String) (args : List String) : String :=
  (String.intercalate (" ") (verb :: args)) ++ ("\n")

/-- `Client.Info`: execute `info <filename>`, wrap any execution error with
the filename, then decode every returned line. -/
def clientInfo (filename : String) (ws : List WAttempt) (ls : List String)
    (endErr : Option Err) : Except Err (List Info) :=
  match execCmd (cmdString ("info") [filename]) ws ls endErr with
  | Except.error e =>
    Except.error (Err.wrap (("failed to get info for \x27") ++ filename ++ ("\x27")) e)
  | Except.ok lines => infoDecode lines

/-- Observable behaviour of `Client.Close`, lines 178-189: the bytes written
to the connection and the returned error. -/
structure CloseResult where
  written : String
  err : Option Err
deriving DecidableEq

/-- Model of `Client.Close`: refresh the deadline (result `errD`), write the
four bytes `quit` (result `errW`), close the stream (result `errC`); the
close error is returned if non-nil, else the deadline error, else the write
error. -/
def closeExec (errD errW errC : Option Err) : CloseResult :=
  { written := ("quit"),
    err :=
      match errC with
      | some e => some e
      | none =>
        match errD with
        | some e => some e
        | none => errW }

/-- Helper: if some member line of an info reply fails to decode, the whole
decode never returns a list of entries. -/
theorem infoDecode_error_of_bad_line (l : String)
    (hbad : ∀ i : Info, decodeInfoLine l ≠ Except.ok i) :
    ∀ lines : List String, l ∈ lines → ∀ res : List Info, infoDecode lines ≠ Except.ok res := by
  intro lines
  induction lines with
  | nil => intro hmem; cases hmem
  | cons a tl ih =>
    intro hmem res h
    simp only [infoDecode] at h
    cases ha : decodeInfoLine a with
    | error e => simp only [ha] at h; exact Except.noConfusion h
    | ok i =>
      simp only [ha] at h
      cases ht : infoDecode tl with
      | error e => simp only [ht] at h; exact Except.noConfusion h
      | ok is =>
        rcases List.mem_cons.mp hmem with hl | hl
        · exact hbad i (by rw [hl]; exact ha)
        · exact ih hl is ht

/-- Helper: a string extended with a newline always has a newline as its
last character. -/
theorem string_newline_getLast (s : String) : (s ++ ("\n")).toList.getLast? = some '\n' := by
  have h : (s ++ ("\n")).toList = s.toList ++ ['\n'] := by
    cases s with
    | mk data => rfl
  rw [h]
  exact List.getLast?_concat _

/-- C1 counterexample: on the reply stream whose status line is `2 first`
followed by the two lines `a` and `b`, the raw-execute decoder returns
exactly `[a, b]`; the claimed results that place the header's trailing text
`first` in front (under either reading of the claim) are different lists, so
the header trail is not part of the decoded result. -/
theorem positive_count_keeps_only_stream_lines :
    execReply [("2 first"), ("a"), ("b")] none = Except.ok [("a"), ("b")] ∧
    ([("a"), ("b")] : List String) ≠ [("first"), ("a"), ("b")] ∧
    ([("a"), ("b")] : List String) ≠ [("first"), ("a")] :=
  ⟨rfl, by decide, by decide⟩

/-- C1 (amended): for a status header parsing to a positive count `n` with
`n` further lines available, the decoded result is exactly those `n` further
lines — the header line's trailing text is discarded — while for count zero
the trailing text is the sole message of the one-element result. -/
theorem execReply_positive_count_exact (l : String) (rest : List String)
    (endErr : Option Err) (ns tr : String) (n : Int)
    (hm : respReMatch l = some (ns, tr)) (hp : parseInt64 ns = some n) :
    (0 < n → n.toNat ≤ rest.length →
      execReply (l :: rest) endErr = Except.ok (rest.take n.toNat)) ∧
    (n = 0 → execReply (l :: rest) endErr = Except.ok [tr]) := by
  constructor
  · intro hpos hlen
    simp only [execReply, hm, hp]
    rw [if_neg (by omega), if_neg (by omega), if_pos hlen]
  · intro hz
    simp only [execReply, hm, hp]
    rw [if_neg (by omega), if_pos hz]

/-- C1 witness: a count-1 reply returns just the one further stream line,
and a count-0 reply returns the header's trailing text. -/
theorem execReply_positive_count_exact_witness :
    execReply [("1 head"), ("x")] none = Except.ok [("x")] ∧
    execReply [("0 hi")] none = Except.ok [("hi")] := by
  constructor
  · have h := (execReply_positive_count_exact ("1 head") [("x")] none ("1") ("head") 1
      rfl rfl).1 (by decide) (by decide)
    simpa using h
  · exact (execReply_positive_count_exact ("0 hi") [] none ("0") ("hi") 0 rfl rfl).2 rfl

/-- C2: when the status header declares a positive count but the stream
yields fewer further lines, raw-execute fails with the scanner's own read
error when there is one and with the unexpected-end-of-stream error when the
stream closed cleanly, and it never returns a (partial) line list. -/
theorem execReply_short_response (l : String) (rest : List String) (endErr : Option Err)
    (ns tr : String) (n : Int)
    (hm : respReMatch l = some (ns, tr)) (hp : parseInt64 ns = some n)
    (hpos : 0 < n) (hshort : rest.length < n.toNat) :
    execReply (l :: rest) endErr = Except.error (scanTermErr endErr) ∧
    (∀ e : Err, scanTermErr (some e) = e) ∧
    scanTermErr none = Err.unexpectedEOF ∧
    (∀ res : List String, execReply (l :: rest) endErr ≠ Except.ok res) := by
  have hmain : execReply (l :: rest) endErr = Except.error (scanTermErr endErr) := by
    simp only [execReply, hm, hp]
    rw [if_neg (by omega), if_neg (by omega), if_neg (by omega)]
  exact ⟨hmain, fun e => rfl, rfl, fun res h => by rw [hmain] at h; simp at h⟩

/-- C2 witness: a count-2 reply with a single further line before a clean
stream end fails with the unexpected-end-of-stream error. -/
theorem execReply_short_response_witness :
    execReply [("2 x"), ("only")] none = Except.error (scanTermErr none) :=
  (execReply_short_response ("2 x") [("only")] none ("2") ("x") 2 rfl rfl
    (by decide) (by decide)).1

/-- C3: a status line parsing to a negative integer makes raw-execute return
the structured protocol error carrying exactly that code and the header's
trailing text as message, and no content lines are returned. -/
theorem execReply_negative_status (l : String) (rest : List String) (endErr : Option Err)
    (ns tr : String) (n : Int)
    (hm : respReMatch l = some (ns, tr)) (hp : parseInt64 ns = some n) (hneg : n < 0) :
    execReply (l :: rest) endErr = Except.error (Err.rrd n tr) ∧
    (∀ res : List String, execReply (l :: rest) endErr ≠ Except.ok res) := by
  have hmain : execReply (l :: rest) endErr = Except.error (Err.rrd n tr) := by
    simp only [execReply, hm, hp]
    rw [if_pos hneg]
  exact ⟨hmain, fun res h => by rw [hmain] at h; simp at h⟩

/-- C3 witness: the reply `-5 nope` yields the protocol error with code `-5`
and message `nope`. -/
theorem execReply_negative_status_witness :
    execReply [("-5 nope")] none = Except.error (Err.rrd (-5) ("nope")) :=
  (execReply_negative_status ("-5 nope") [] none ("-5") ("nope") (-5) rfl rfl
    (by decide)).1

/-- C4: a first reply line that does not match the `respRe` shape (optional
minus sign, digits, whitespace, rest) makes raw-execute fail with the
malformed-response error, which is a different error from every structured
protocol error (it carries no daemon status code). -/
theorem execReply_malformed_status (l : String) (rest : List String) (endErr : Option Err)
    (hm : respReMatch l = none) :
    execReply (l :: rest) endErr
      = Except.error (Err.plain (("not 3 matches: \x27") ++ l ++ ("\x27"))) ∧
    (∀ (code : Int) (msg : String),
      Err.plain (("not 3 matches: \x27") ++ l ++ ("\x27")) ≠ Err.rrd code msg) := by
  constructor
  · simp only [execReply, hm]
  · intro code msg h
    exact Err.noConfusion h

/-- C4 witness: the line `OK` has no leading integer and fails with the
malformed-response error. -/
theorem execReply_malformed_status_witness :
    execReply [("OK")] none = Except.error (Err.plain ("not 3 matches: \x27OK\x27")) :=
  (execReply_malformed_status ("OK") [] none rfl).1

/-- C5: info content lines dispatch on the type tag — tag `2` keeps the raw
third field unchanged as a string (including embedded spaces, since the
split keeps the remainder whole), tag `1` parses it as a 64-bit signed
integer, tag `0` parses it as a 64-bit float; concretely `-42` under tag `1`
is the integer `-42`, `3.5` under tag `0` is the float `3.5`, and
`rrd file` under tag `2` is the string `rrd file`. -/
theorem info_typed_value_dispatch :
    (∀ line k v, goSplitN3 line = [k, ("2"), v] →
      decodeInfoLine line = Except.ok ⟨k, InfoValue.str v⟩) ∧
    (∀ line k v i, goSplitN3 line = [k, ("1"), v] → parseInt64 v = some i →
      decodeInfoLine line = Except.ok ⟨k, InfoValue.int i⟩) ∧
    (∀ line k v f, goSplitN3 line = [k, ("0"), v] → parseFloat v = some f →
      decodeInfoLine line = Except.ok ⟨k, InfoValue.float f⟩) ∧
    decodeInfoLine ("k 1 -42") = Except.ok ⟨("k"), InfoValue.int (-42)⟩ ∧
    decodeInfoLine ("k 0 3.5")
      = Except.ok ⟨("k"), InfoValue.float (GoFloat.finite (mkRat 7 2))⟩ ∧
    decodeInfoLine ("k 2 rrd file") = Except.ok ⟨("k"), InfoValue.str ("rrd file")⟩ := by
  refine ⟨?_, ?_, ?_, rfl, rfl, rfl⟩
  · intro line k v h
    simp [decodeInfoLine, h]
  · intro line k v i h hp
    simp [decodeInfoLine, h, hp]
  · intro line k v f h hp
    simp [decodeInfoLine, h, hp]

/-- C5 witness: the line `x 2 a b` splits into key `x`, tag `2` and raw
value `a b`, and decodes to the string value `a b` with its embedded
space. -/
theorem info_typed_value_dispatch_witness :
    goSplitN3 ("x 2 a b") = [("x"), ("2"), ("a b")] ∧
    decodeInfoLine ("x 2 a b") = Except.ok ⟨("x"), InfoValue.str ("a b")⟩ :=
  ⟨rfl, info_typed_value_dispatch.1 ("x 2 a b") ("x") ("a b") rfl⟩

/-- C6: an info line with fewer than three fields is a malformed-response
error; an unrecognized tag is an invalid-response error naming the tag and
the key; a tag-1 or tag-0 line whose value fails numeric parsing is an
invalid-response error naming the key; and a reply containing any
undecodable line never yields an entry list at all. -/
theorem info_line_error_policy :
    (∀ line, (goSplitN3 line).length ≠ 3 →
      decodeInfoLine line
        = Except.error
            (Err.plain (("unexpected response: not 3 parts \x27") ++ line ++ ("\x27")))) ∧
    (∀ line k t v, goSplitN3 line = [k, t, v] → t ≠ ("2") → t ≠ ("1") → t ≠ ("0") →
      decodeInfoLine line
        = Except.error
            (Err.invalidResponse (("info: unknown type ") ++ t ++ (" for key ") ++ k) line)) ∧
    (∀ line k v, goSplitN3 line = [k, ("1"), v] → parseInt64 v = none →
      decodeInfoLine line
        = Except.error (Err.invalidResponse (("info: invalid int for key ") ++ k) line)) ∧
    (∀ line k v, goSplitN3 line = [k, ("0"), v] → parseFloat v = none →
      decodeInfoLine line
        = Except.error (Err.invalidResponse (("info: invalid float for key ") ++ k) line)) ∧
    (∀ (lines : List String) (l : String), l ∈ lines →
      (∀ i : Info, decodeInfoLine l ≠ Except.ok i) →
      ∀ res : List Info, infoDecode lines ≠ Except.ok res) := by
  refine ⟨?_, ?_, ?_, ?_, fun lines l hmem hbad => infoDecode_error_of_bad_line l hbad lines hmem⟩
  · intro line h
    cases e : goSplitN3 line with
    | nil => simp only [decodeInfoLine, e]
    | cons a t1 =>
      cases t1 with
      | nil => simp only [decodeInfoLine, e]
      | cons b t2 =>
        cases t2 with
        | nil => simp only [decodeInfoLine, e]
        | cons c t3 =>
          cases t3 with
          | nil => exact absurd (by rw [e]; rfl) h
          | cons d t4 => simp only [decodeInfoLine, e]
  · intro line k t v h h2 h1 h0
    simp only [decodeInfoLine, h]
    rw [if_neg h2, if_neg h1, if_neg h0]
  · intro line k v h hp
    simp [decodeInfoLine, h, hp]
  · intro line k v h hp
    simp [decodeInfoLine, h, hp]

/-- C6 witness: the unknown tag `9` yields the invalid-response error naming
tag and key, and a two-field line yields the malformed-response error. -/
theorem info_line_error_policy_witness :
    decodeInfoLine ("k 9 x")
      = Except.error (Err.invalidResponse ("info: unknown type 9 for key k") ("k 9 x")) ∧
    decodeInfoLine ("a b")
      = Except.error (Err.plain ("unexpected response: not 3 parts \x27a b\x27")) :=
  ⟨info_line_error_policy.2.1 ("k 9 x") ("k") ("9") ("x") rfl (by decide) (by decide)
     (by decide),
   info_line_error_policy.1 ("a b") (by decide)⟩

/-- C7 counterexample: when the daemon reply consists of exactly the two
lines `2 ds[temp].type 2 GAUGE` and `ds[temp].index 1 0`, the info operation
does not produce the claimed entries — the header declares two further lines
but only one arrives, so the call fails with the wrapped
unexpected-end-of-stream error and returns no entry list at all. -/
theorem info_scenario_header_not_content :
    clientInfo ("/tmp/x.rrd") [⟨none, none⟩]
      [("2 ds[temp].type 2 GAUGE"), ("ds[temp].index 1 0")] none
      = Except.error
          (Err.wrap ("failed to get info for \x27/tmp/x.rrd\x27") Err.unexpectedEOF) ∧
    (∀ entries : List Info,
      (Except.error
          (Err.wrap ("failed to get info for \x27/tmp/x.rrd\x27") Err.unexpectedEOF)
        : Except Err (List Info)) ≠ Except.ok entries) :=
  ⟨rfl, fun _entries h => Except.noConfusion h⟩

/-- C7 (amended): for the info request on `/tmp/x.rrd` where the daemon
replies with a status header of count 2 followed by the two content lines
`ds[temp].type 2 GAUGE` and `ds[temp].index 1 0`, the decoded entries are
exactly `ds[temp].type` mapped to the string `GAUGE` and `ds[temp].index`
mapped to the 64-bit integer 0 (its tag `1` selects the integer
representation). -/
theorem info_scenario_three_line_reply :
    clientInfo ("/tmp/x.rrd") [⟨none, none⟩]
      [("2 Info for /tmp/x.rrd"), ("ds[temp].type 2 GAUGE"), ("ds[temp].index 1 0")] none
      = Except.ok [⟨("ds[temp].type"), InfoValue.str ("GAUGE")⟩,
          ⟨("ds[temp].index"), InfoValue.int 0⟩] := rfl

/-- C8: the write loop retries (after reconnecting) exactly when the write
error is a broken-pipe or connection-reset condition, as often as that
condition recurs; any other write error is surfaced at once without a
reconnection attempt; and when reconnection itself fails the returned error
reports the original write error text together with the reconnection
error. -/
theorem write_retry_policy :
    (∀ (w : WErr) (rr : Option Err) (rest : List WAttempt), retryable w = false →
      writeLoop (⟨some w, rr⟩ :: rest)
        = WriteOutcome.failed (Err.wrap ("failed to write") (Err.plain w.msg))) ∧
    (∀ (w : WErr) (rest : List WAttempt), retryable w = true →
      writeLoop (⟨some w, none⟩ :: rest) = writeLoop rest) ∧
    (∀ (w : WErr) (e2 : Err) (rest : List WAttempt), retryable w = true →
      writeLoop (⟨some w, some e2⟩ :: rest)
        = WriteOutcome.failed
            (Err.wrap (("failed to write (") ++ w.msg ++ (") and failed to reestablish"))
              e2)) ∧
    (∀ (rr : Option Err) (rest : List WAttempt),
      writeLoop (⟨none, rr⟩ :: rest) = WriteOutcome.ok) ∧
    (∀ w : WErr, retryable w = (w.epipe || w.reset)) := by
  refine ⟨?_, ?_, ?_, fun rr rest => rfl, fun w => rfl⟩
  · intro w rr rest h
    simp [writeLoop, h]
  · intro w rest h
    simp [writeLoop, h]
  · intro w e2 rest h
    simp [writeLoop, h]

/-- C8 witness: a non-retryable write error (`disk full`) is surfaced
immediately, while a broken-pipe error with a successful reconnection makes
the loop continue with the next attempt. -/
theorem write_retry_policy_witness :
    writeLoop [⟨some ⟨false, false, ("disk full")⟩, none⟩]
      = WriteOutcome.failed (Err.wrap ("failed to write") (Err.plain ("disk full"))) ∧
    writeLoop (⟨some ⟨true, false, ("broken pipe")⟩, none⟩ :: [⟨none, none⟩])
      = writeLoop [⟨none, none⟩] :=
  ⟨write_retry_policy.1 ⟨false, false, ("disk full")⟩ none [] rfl,
   write_retry_policy.2.1 ⟨true, false, ("broken pipe")⟩ [⟨none, none⟩] rfl⟩

/-- C9: the close operation returns the stream-close error whenever closing
fails, regardless of the other two steps; otherwise a deadline-refresh
failure takes precedence over a quit-send failure; and when all three steps
succeed it returns no error. -/
theorem close_error_priority :
    (∀ (errD errW : Option Err) (e : Err), (closeExec errD errW (some e)).err = some e) ∧
    (∀ (errW : Option Err) (e : Err), (closeExec (some e) errW none).err = some e) ∧
    (∀ errW : Option Err, (closeExec none errW none).err = errW) ∧
    (closeExec none none none).err = none :=
  ⟨fun _ _ _ => rfl, fun _ _ => rfl, fun _ => rfl, rfl⟩

/-- C10: whatever the step outcomes, close writes exactly the four bytes
`quit`, whose last character is `t` (so no trailing newline), whereas every
encoded request line ends in a newline. -/
theorem close_quit_payload :
    (∀ errD errW errC : Option Err, (closeExec errD errW errC).written = ("quit")) ∧
    ("quit" : String).toList = ['q', 'u', 'i', 't'] ∧
    (∀ errD errW errC : Option Err,
      (closeExec errD errW errC).written.toList.getLast? = some 't') ∧
    ('t' : Char) ≠ '\n' ∧
    (∀ (verb : String) (args : List String),
      (cmdString verb args).toList.getLast? = some '\n') :=
  ⟨fun _ _ _ => rfl, rfl, fun _ _ _ => rfl, by decide,
   fun verb args => string_newline_getLast (String.intercalate (" ") (verb :: args))⟩
